import Mathlib

/-!
# Verification of the falcon interaction controller (`App`)

Shallow embedding of the `App` class from `src/unnamed/part_001` (the
interaction controller of the falcon crossfilter engine), together with the
concrete view configuration of `src/unnamed/part_000`.

Modelling conventions:
* JavaScript `Map` objects that are only read point-wise (`this.brushes`,
  `this.data`) are embedded as functions `String → Option _`; JS `Map.set`
  and `Map.delete` become point-wise functional update.
* `this.views`, which the code iterates over in `update()`, is an
  association list `List (String × View)`.
* Numbers are rationals (the interaction arithmetic is exact in the inputs
  the claims use).
* External effects (vega signals/render calls, `db.loadData`) are made
  explicit: `loadData` is an abstract function parameter and each state
  transition returns, besides the successor state, a record of the build
  and render calls it issues.
* The functions imported from `src/util` and `src/view` (`bin`,
  `binNumberFunction`, `binToData`, `clamp`, `diff`, `stepSize`,
  `HISTOGRAM_WIDTH`) are files of this repository that are not part of the
  given sources; they are modelled from the spec, each with a doc comment
  saying so.
-/

/-- Modelled from the spec: `HISTOGRAM_WIDTH` from `src/view` is missing from
the sources; §8.7 of the spec fixes the active resolution `W = 500`. -/
def HISTOGRAM_WIDTH : ℕ := 500

/-- Modelled from the spec: `stepSize` from `src/util` is missing from the
sources; the spec describes `resolution+1` equally spaced boundaries spanning
the extent, so the step is the extent width divided by the bin count. -/
def stepSize (extent : ℚ × ℚ) (bins : ℕ) : ℚ :=
  (extent.2 - extent.1) / (bins : ℚ)

/-- JavaScript `Math.round`: round half toward positive infinity,
`⌊q + 1/2⌋` (stated through the executable `Rat.floor`). -/
def jsRound (q : ℚ) : ℤ := (q + 1 / 2).floor

/-- The function `jsRound` agrees with the mathematical floor of `q + 1/2`. -/
theorem jsRound_eq_floor (q : ℚ) : jsRound q = ⌊q + 1 / 2⌋ := by
  rw [jsRound, Rat.floor_def', Rat.floor_def]

/-- Modelled from the spec: `clamp` from `src/util` is missing from the
sources; standard clamping of a value into an inclusive range. -/
def clampInt (v lo hi : ℤ) : ℤ := max lo (min v hi)

/-- Modelled from the spec: `binNumberFunction` from `src/util` is missing
from the sources; the spec (§4.3, §9) prescribes round-to-nearest mapping of
a data value to a boundary index of the grid with the given start and step. -/
def binNumberF (start step v : ℚ) : ℤ := jsRound ((v - start) / step)

/-- A dimension as configured for the `App`: name, bin count, extent
(`src/unnamed/part_000` lines 14-42, field `range`). -/
structure Dimension where
  name : String
  bins : ℕ
  extent : ℚ × ℚ
deriving DecidableEq

/-- The snapped boundary index computed in `App.update`
(`src/unnamed/part_001` lines 247-260): `clamp(activeBinF(b), [0,
HISTOGRAM_WIDTH - 1])` with `activeBinF = binNumberFunction({start:
extent[0], step: stepSize(extent, HISTOGRAM_WIDTH)})`. -/
def snapIndex (dim : Dimension) (b : ℚ) : ℤ :=
  clampInt (binNumberF dim.extent.1 (stepSize dim.extent HISTOGRAM_WIDTH) b)
    0 ((HISTOGRAM_WIDTH : ℤ) - 1)

/-- The `i`-th of the `HISTOGRAM_WIDTH + 1` equally spaced boundaries
spanning a dimension's extent. -/
def boundary (dim : Dimension) (i : ℤ) : ℚ :=
  dim.extent.1 + (i : ℚ) * stepSize dim.extent HISTOGRAM_WIDTH

/-- Modelled from the spec: `diff` from `src/util` is missing from the
sources; the spec says the result of `diff(Cube[lo], Cube[hi])` is the
element-wise difference `Cube[hiIndex] − Cube[loIndex]`, so `diff a b` is the
element-wise `b − a`. 1D variant. -/
def diff1 (a b : List ℚ) : List ℚ := List.zipWith (fun x y => y - x) a b

/-- Element-wise `diff` on matrices (2D variant, rows zipped with `diff1`). -/
def diff2 (a b : List (List ℚ)) : List (List ℚ) := List.zipWith diff1 a b

/-- Derived bin configuration of a dimension (spec §3: `start`, `step`,
`stop`, `count`). -/
structure BinConfig where
  start : ℚ
  step : ℚ
  count : ℕ
deriving DecidableEq

/-- Modelled from the spec: `bin` from `src/util` is missing from the
sources; it derives a bin configuration from `{maxbins, extent}` — `count`
bins of equal width starting at the extent's lower end. -/
def bin (maxbins : ℕ) (extent : ℚ × ℚ) : BinConfig :=
  ⟨extent.1, stepSize extent maxbins, maxbins⟩

/-- Modelled from the spec: `binToData` from `src/util` is missing from the
sources; spec §6 says bin keys are the data-domain boundaries derived from
the bin configuration, so bin index `x` maps to `start + x * step`. -/
def binToData (c : BinConfig) (x : ℕ) : ℚ := c.start + (x : ℚ) * c.step

/-- The library call `d3.extent` applied to a two-element brush value: the pair sorted into
`[min, max]` order (`src/unnamed/part_001` line 180). -/
def d3Extent (p : ℚ × ℚ) : ℚ × ℚ := (min p.1 p.2, max p.1 p.2)

/-- A view as held in `this.views`: tagged 1D/2D variant as discriminated by
`is1DView` in `src/unnamed/part_001`. -/
inductive View where
  | view1D (dimension : Dimension)
  | view2D (dimensions : Dimension × Dimension)
deriving DecidableEq

/-- Cube data stored in `this.data` for one passive view: the ndarray of
`HISTOGRAM_WIDTH + 1` slices, each slice a 1D histogram or a 2D heatmap. -/
inductive CubeData where
  | one (slices : List (List ℚ))
  | two (slices : List (List (List ℚ)))
deriving DecidableEq

/-- One `{key, value}` rendering datum for a 1D view
(`src/unnamed/part_001` lines 198-203). -/
structure KV where
  key : ℚ
  value : ℚ
deriving DecidableEq

/-- One `{keyX, keyY, value}` rendering datum for a 2D view
(`src/unnamed/part_001` lines 215-222). -/
structure KKV where
  keyX : ℚ
  keyY : ℚ
  value : ℚ
deriving DecidableEq

/-- The payload handed to `updateView` for one view. -/
inductive RenderData where
  | d1 (data : List KV)
  | d2 (data : List KKV)
deriving DecidableEq

/-- The brushes map `this.brushes : Map<D, Interval<number>>`, embedded as a
point-wise function. -/
abbrev Brushes : Type := String → Option (ℚ × ℚ)

/-- The cube map `this.data : Map<V, ndarray>`, embedded point-wise. -/
abbrev DataMap : Type := String → Option CubeData

/-- JS `Map.set` on the point-wise brushes embedding. -/
def mapSetB (k : String) (v : ℚ × ℚ) (m : Brushes) : Brushes :=
  fun d => if d = k then some v else m d

/-- JS `Map.delete` on the point-wise brushes embedding. -/
def mapDeleteB (k : String) (m : Brushes) : Brushes :=
  fun d => if d = k then none else m d

/-- The view list `this.views`, with `Map.get` as association-list lookup. -/
abbrev ViewList : Type := List (String × View)

/-- Lookup `this.views.get(name)`. -/
def lookupView : ViewList → String → Option View
  | [], _ => none
  | (k, v) :: rest, n => if k = n then some v else lookupView rest n

/-- The abstract `db.loadData` (from `src/db`, not in the sources): given the
newly active view's name and the filter brushes, it returns the cube map the
store installs in `this.data`. -/
abbrev LoadData : Type := String → Brushes → DataMap

/-- The mutable fields of the `App` instance
(`src/unnamed/part_001` lines 23-27). -/
structure AppState where
  activeView : Option String
  brushes : Brushes
  data : DataMap
  needsUpdate : Bool

/-- The state right after the constructor ran: `activeView` never assigned
(the assignment at line 44 is commented out), no brushes, no cube data,
`needsUpdate = false`. -/
def initState : AppState :=
  { activeView := none, brushes := fun _ => none, data := fun _ => none,
    needsUpdate := false }

/-- The cube-(re)build call issued through `db.loadData` in
`App.switchActiveView`: the newly active view's name and the filter context
(the copied brushes with the active 1D dimension's entry deleted). -/
structure BuildCall where
  active : String
  filterBrushes : Brushes

/-- Method `App.switchActiveView` (`src/unnamed/part_001` lines 104-140): set
`activeView`, copy the brushes, delete the new active (1D) view's dimension
from the copy, and install `db.loadData(activeView, HISTOGRAM_WIDTH,
omit(views, name), brushes)` as `this.data`. The vega `active` signals are
external effects with no state. -/
def App.switchActiveView (views : ViewList) (ld : LoadData) (s : AppState)
    (name : String) : AppState × BuildCall :=
  let filterB : Brushes :=
    match lookupView views name with
    | some (View.view1D dim) => mapDeleteB dim.name s.brushes
    | _ => s.brushes
  ({ s with activeView := some name, data := ld name filterB },
   { active := name, filterBrushes := filterB })

/-- The `mouseover` listener (`src/unnamed/part_001` lines 77-81): switch the
active view only when the hovered view is not already active. -/
def App.hover (views : ViewList) (ld : LoadData) (s : AppState)
    (name : String) : AppState × Option BuildCall :=
  if s.activeView = some name then (s, none)
  else
    let r := App.switchActiveView views ld s name
    (r.1, some r.2)

/-- Method `App.brushMove` (`src/unnamed/part_001` lines 171-187): switch the active
view if needed, then delete the brush (falsy value) or store
`extent(value)`, and set the dirty flag. The scheduled
`requestAnimationFrame` callback is modelled as the separate `App.update`
transition. -/
def App.brushMove (views : ViewList) (ld : LoadData) (s : AppState)
    (name dimension : String) (value : Option (ℚ × ℚ)) :
    AppState × Option BuildCall :=
  let r : AppState × Option BuildCall :=
    if s.activeView = some name then (s, none)
    else
      let r' := App.switchActiveView views ld s name
      (r'.1, some r'.2)
  let brushes' : Brushes :=
    match value with
    | none => mapDeleteB dimension r.1.brushes
    | some v => mapSetB dimension (d3Extent v) r.1.brushes
  ({ r.1 with brushes := brushes', needsUpdate := true }, r.2)

/-- Method `App.update1DView` (`src/unnamed/part_001` lines 193-206): one
`{key, value}` pair per bin of the delivered histogram, with the key
produced by `binToData` of the view's bin configuration (set from
`bin({maxbins, extent})` during initialisation, lines 61-65). -/
def update1DView (dim : Dimension) (hist : List ℚ) : List KV :=
  (List.range hist.length).map fun x =>
    { key := binToData (bin dim.bins dim.extent) x, value := hist.getD x 0 }

/-- Method `App.update2DView` (`src/unnamed/part_001` lines 208-226): row-major
`{keyX, keyY, value}` triples over all bin pairs of the delivered heatmap. -/
def update2DView (dims : Dimension × Dimension) (heat : List (List ℚ)) :
    List KKV :=
  ((List.range heat.length).map fun x =>
    (List.range (heat.getD x []).length).map fun y =>
      { keyX := binToData (bin dims.1.bins dims.1.extent) x,
        keyY := binToData (bin dims.2.bins dims.2.extent) y,
        value := (heat.getD x []).getD y 0 }).flatten

/-- The histogram handed to `update1DView` for a passive 1D view
(`src/unnamed/part_001` lines 271-276): the slice diff under an active
brush, else the last slice `hists.pick(HISTOGRAM_WIDTH, null)`. -/
def pickHist (activeBrush : Option (ℤ × ℤ)) (slices : List (List ℚ)) :
    List ℚ :=
  match activeBrush with
  | some lh => diff1 (slices.getD lh.1.toNat []) (slices.getD lh.2.toNat [])
  | none => slices.getD HISTOGRAM_WIDTH []

/-- The heatmap handed to `update2DView` for a passive 2D view
(`src/unnamed/part_001` lines 280-285). -/
def pickHeat (activeBrush : Option (ℤ × ℤ))
    (slices : List (List (List ℚ))) : List (List ℚ) :=
  match activeBrush with
  | some lh => diff2 (slices.getD lh.1.toNat []) (slices.getD lh.2.toNat [])
  | none => slices.getD HISTOGRAM_WIDTH []

/-- The body of the per-view loop of `App.update`
(`src/unnamed/part_001` lines 263-289): skip the active view, look up the
view's cubes in `this.data` and hand the picked aggregate to the rendering
layer. The 1D/2D discrimination is `is1DView`; the mismatch/missing-data
fall-through models the implicit precondition of the non-null assertion
`this.data.get(name)!`. -/
def passiveRender (s : AppState) (av : String)
    (activeBrush : Option (ℤ × ℤ)) (nv : String × View) :
    Option (String × RenderData) :=
  if nv.1 = av then none
  else
    match nv.2, s.data nv.1 with
    | View.view1D dim, some (CubeData.one slices) =>
      some (nv.1, RenderData.d1 (update1DView dim (pickHist activeBrush slices)))
    | View.view2D dims, some (CubeData.two slices) =>
      some (nv.1, RenderData.d2 (update2DView dims (pickHeat activeBrush slices)))
    | _, _ => none

/-- The render computation of `App.update` after the dirty-flag check
(`src/unnamed/part_001` lines 246-289): snap the active brush to cube
indices and render every passive view. The fall-through when the active
view's lookup does not produce a 1D view models the implicit precondition of
the `getActiveView` cast. -/
def App.computeRenders (views : ViewList) (s : AppState) :
    List (String × RenderData) :=
  match s.activeView with
  | none => []
  | some av =>
    match lookupView views av with
    | some (View.view1D adim) =>
      let activeBrush : Option (ℤ × ℤ) :=
        (s.brushes adim.name).map fun p =>
          (snapIndex adim p.1, snapIndex adim p.2)
      views.filterMap (passiveRender s av activeBrush)
    | _ => []

/-- Method `App.update` (`src/unnamed/part_001` lines 238-290): skip when the dirty
flag is clear; otherwise clear the flag and render every passive view from
the current state. -/
def App.update (views : ViewList) (s : AppState) :
    AppState × List (String × RenderData) :=
  if s.needsUpdate = true then
    ({ s with needsUpdate := false }, App.computeRenders views s)
  else (s, [])

/-- One externally triggered transition of the controller. Brush and hover
events are only ever generated by the listeners attached in `initialize`
(`src/unnamed/part_001` lines 73-81), which exist exactly for the 1D views
of `this.views` and pass that view's own dimension name to `brushMove`;
`update` is the scheduled animation-frame callback. -/
inductive Step (views : ViewList) (ld : LoadData) : AppState → AppState → Prop
  | hover (s : AppState) (name : String) (dim : Dimension)
      (h : lookupView views name = some (View.view1D dim)) :
      Step views ld s (App.hover views ld s name).1
  | brush (s : AppState) (name : String) (dim : Dimension)
      (value : Option (ℚ × ℚ))
      (h : lookupView views name = some (View.view1D dim)) :
      Step views ld s (App.brushMove views ld s name dim.name value).1
  | upd (s : AppState) : Step views ld s (App.update views s).1

/-- States of the controller reachable from the freshly constructed app. -/
inductive Reachable (views : ViewList) (ld : LoadData) : AppState → Prop
  | init : Reachable views ld initState
  | step {s s' : AppState} (hr : Reachable views ld s)
      (hs : Step views ld s s') : Reachable views ld s'

/-- The `ARR_DELAY` dimension of `src/unnamed/part_000` lines 14-20:
extent `[-10, 100]`, 25 bins. -/
def arrDelayDim : Dimension := { name := "ARR_DELAY", bins := 25, extent := (-10, 100) }

/-- The `DISTANCE` dimension of `src/unnamed/part_000` lines 21-27:
extent `[50, 2000]`, 25 bins. -/
def distanceDim : Dimension := { name := "DISTANCE", bins := 25, extent := (50, 2000) }

/-- The `DEP_DELAY` dimension of `src/unnamed/part_000` lines 28-34:
extent `[-10, 100]`, 25 bins. -/
def depDelayDim : Dimension := { name := "DEP_DELAY", bins := 25, extent := (-10, 100) }

/-- The view configuration of `src/unnamed/part_000` lines 14-42
(field `range` there is the dimension extent). -/
def flightViews : ViewList :=
  [("ARR_DELAY", View.view1D arrDelayDim),
   ("DISTANCE", View.view1D distanceDim),
   ("DEP_DELAY", View.view1D depDelayDim),
   ("DEP_DELAY_ARR_DELAY", View.view2D (depDelayDim, arrDelayDim))]

/-- A trivial concrete backend used to instantiate reachable traces. -/
def ld0 : LoadData := fun _ _ _ => none

attribute [local semireducible] Rat.mul Rat.add Rat.sub Rat.inv


/-- The state reached from the fresh app by a single brush event on the
`ARR_DELAY` view with value `[10, 50]`. -/
def state1 : AppState :=
  (App.brushMove flightViews ld0 initState "ARR_DELAY" "ARR_DELAY"
    (some (10, 50))).1


/-- Fact: `switchActiveView` never touches the controller's own brushes map. -/
theorem switchActiveView_fst_brushes (views : ViewList) (ld : LoadData)
    (s : AppState) (name : String) :
    (App.switchActiveView views ld s name).1.brushes = s.brushes := rfl

/-- Fact: `hover` never touches the brushes map. -/
theorem hover_fst_brushes (views : ViewList) (ld : LoadData) (s : AppState)
    (name : String) : (App.hover views ld s name).1.brushes = s.brushes := by
  unfold App.hover
  split <;> rfl

/-- Fact: `update` never touches the brushes map. -/
theorem update_fst_brushes (views : ViewList) (s : AppState) :
    (App.update views s).1.brushes = s.brushes := by
  unfold App.update
  split <;> rfl

/-- The brushes map after `brushMove`: the entry at `dimension` is deleted or
set to the normalized interval, the rest is untouched. -/
theorem brushMove_fst_brushes (views : ViewList) (ld : LoadData)
    (s : AppState) (name dimension : String) (value : Option (ℚ × ℚ)) :
    (App.brushMove views ld s name dimension value).1.brushes =
      match value with
      | none => mapDeleteB dimension s.brushes
      | some v => mapSetB dimension (d3Extent v) s.brushes := by
  unfold App.brushMove
  cases value <;> split <;> rfl

/-- C10: `switchActiveView` deletes the newly active dimension's entry only
from the copied filter map it passes to `loadData`; the controller's own
brushes map is left unchanged — for every dimension the stored brush entry
before and after the call is identical. -/
theorem claim10_switch_preserves_brushes (views : ViewList) (ld : LoadData)
    (s : AppState) (name : String) :
    (App.switchActiveView views ld s name).1.brushes = s.brushes ∧
    ∀ d, (App.switchActiveView views ld s name).1.brushes d = s.brushes d :=
  ⟨rfl, fun _ => rfl⟩

/-- C6: a `brushMove` on the currently active view updates or removes the
brushes entry and sets the dirty flag, but issues no `loadData` call and
leaves `this.data` the very same object. -/
theorem claim6_brushMove_active_no_rebuild (views : ViewList) (ld : LoadData)
    (s : AppState) (name dimension : String) (value : Option (ℚ × ℚ))
    (h : s.activeView = some name) :
    (App.brushMove views ld s name dimension value).1.data = s.data ∧
    (App.brushMove views ld s name dimension value).2 = none ∧
    (App.brushMove views ld s name dimension value).1.needsUpdate = true ∧
    (App.brushMove views ld s name dimension value).1.activeView = some name ∧
    (value = none → (App.brushMove views ld s name dimension value).1.brushes
        = mapDeleteB dimension s.brushes) ∧
    (∀ v, value = some v →
      (App.brushMove views ld s name dimension value).1.brushes
        = mapSetB dimension (d3Extent v) s.brushes) := by
  refine ⟨?_, ?_, ?_, ?_, ?_, ?_⟩ <;>
    simp only [App.brushMove, h, if_pos] <;> cases value <;> simp

/-- C7: brush events only set a dirty flag; `update` is a no-op when the
flag is clear, a completed `update` clears the flag (so a second scheduled
`update` in the same round changes nothing), and a running `update` reads
nothing but the state current at that moment — in particular only the final
brush state of any burst of `brushMove` calls. -/
theorem claim7_update_coalescing (views : ViewList) (ld : LoadData) :
    (∀ s : AppState, s.needsUpdate = false → App.update views s = (s, [])) ∧
    (∀ (s : AppState) (name dimension : String) (value : Option (ℚ × ℚ)),
       (App.brushMove views ld s name dimension value).1.needsUpdate = true) ∧
    (∀ s : AppState, (App.update views s).1.needsUpdate = false) ∧
    (∀ s : AppState,
       App.update views (App.update views s).1 = ((App.update views s).1, [])) ∧
    (∀ s : AppState, s.needsUpdate = true →
       App.update views s =
         ({ s with needsUpdate := false }, App.computeRenders views s)) := by
  have hflag : ∀ s : AppState, (App.update views s).1.needsUpdate = false := by
    intro s
    unfold App.update
    rcases h : s.needsUpdate with _ | _ <;> simp [h]
  have hskip : ∀ s : AppState, s.needsUpdate = false →
      App.update views s = (s, []) := by
    intro s h
    simp [App.update, h]
  refine ⟨hskip, ?_, hflag, fun s => hskip _ (hflag s), ?_⟩
  · intro s name dimension value
    rfl
  · intro s h
    simp [App.update, h]

/-- C5: hovering a 1D view other than the active one switches the active
view and issues exactly one cube build whose filter context is the current
brushes minus any brush on the newly active view's dimension; hovering the
already-active view does nothing. -/
theorem claim5_hover_switch (views : ViewList) (ld : LoadData) (s : AppState)
    (name : String) (dim : Dimension)
    (h : lookupView views name = some (View.view1D dim)) :
    (s.activeView ≠ some name →
       (App.hover views ld s name).1.activeView = some name ∧
       (App.hover views ld s name).2 =
         some { active := name, filterBrushes := mapDeleteB dim.name s.brushes } ∧
       (App.hover views ld s name).1.data =
         ld name (mapDeleteB dim.name s.brushes) ∧
       mapDeleteB dim.name s.brushes dim.name = none ∧
       (∀ d, d ≠ dim.name → mapDeleteB dim.name s.brushes d = s.brushes d)) ∧
    (s.activeView = some name → App.hover views ld s name = (s, none)) := by
  constructor
  · intro hne
    refine ⟨?_, ?_, ?_, ?_, ?_⟩ <;>
      simp_all [App.hover, App.switchActiveView, h, mapDeleteB]
  · intro heq
    simp [App.hover, heq]

/-- C4 does not hold as stated: after a single brush event on the
`ARR_DELAY` view the controller is in a reachable state whose active view is
`ARR_DELAY`, yet its brushes map stores an entry for that very dimension
(the active brush that `update` later reads back). -/
theorem claim4_counterexample :
    Reachable flightViews ld0 state1 ∧
    state1.activeView = some "ARR_DELAY" ∧
    lookupView flightViews "ARR_DELAY" = some (View.view1D arrDelayDim) ∧
    arrDelayDim.name = "ARR_DELAY" ∧
    state1.brushes "ARR_DELAY" = some (10, 50) :=
  ⟨Reachable.step Reachable.init
      (Step.brush initState "ARR_DELAY" arrDelayDim (some (10, 50)) (by decide)),
    by decide, by decide, by decide, by decide⟩

/-- C4 amended: at most one view is active at any time (the active view is a
single optional field), and the filter context handed to the cube build on a
view switch contains no entry for the newly active 1D view's dimension; the
controller's own brushes map, however, may retain an entry for the active
dimension (it is the active brush that `update` reads). -/
theorem claim4_amended_filter_excludes_active (views : ViewList)
    (ld : LoadData) (s : AppState) (name : String) (dim : Dimension)
    (h : lookupView views name = some (View.view1D dim)) :
    (App.switchActiveView views ld s name).2.filterBrushes dim.name = none ∧
    (App.switchActiveView views ld s name).1.activeView = some name ∧
    (∀ n1 n2, (App.switchActiveView views ld s name).1.activeView = some n1 →
       (App.switchActiveView views ld s name).1.activeView = some n2 →
       n1 = n2) := by
  refine ⟨?_, rfl, ?_⟩
  · simp [App.switchActiveView, h, mapDeleteB]
  · intro n1 n2 h1 h2
    rw [h1] at h2
    exact Option.some_injective _ h2

/-- C9: in every reachable controller state, every stored brush interval is
normalized — `brushMove` stores `extent(value)`, i.e. the endpoints sorted,
so `lo ≤ hi` holds for every entry of the brushes map. -/
theorem claim9_brushes_normalized (views : ViewList) (ld : LoadData)
    (s : AppState) (h : Reachable views ld s) :
    ∀ d lo hi, s.brushes d = some (lo, hi) → lo ≤ hi := by
  induction h with
  | init =>
    intro d lo hi hd
    simp [initState] at hd
  | step hr hs ih =>
    cases hs with
    | hover name dim hl =>
      intro d lo hi hd
      rw [hover_fst_brushes] at hd
      exact ih d lo hi hd
    | brush name dim value hl =>
      intro d lo hi hd
      rw [brushMove_fst_brushes] at hd
      cases value with
      | none =>
        simp only [mapDeleteB] at hd
        by_cases hk : d = dim.name
        · simp [hk] at hd
        · rw [if_neg hk] at hd
          exact ih d lo hi hd
      | some v =>
        simp only [mapSetB] at hd
        by_cases hk : d = dim.name
        · rw [if_pos hk] at hd
          have hv : d3Extent v = (lo, hi) := by
            injection hd
          have h1 : min v.1 v.2 = lo := congrArg Prod.fst hv
          have h2 : max v.1 v.2 = hi := congrArg Prod.snd hv
          rw [← h1, ← h2]
          exact min_le_max
        · rw [if_neg hk] at hd
          exact ih d lo hi hd
    | upd =>
      intro d lo hi hd
      rw [update_fst_brushes] at hd
      exact ih d lo hi hd

/-- Witness for C9 at a concrete reachable state: the one-step state
`state1` stores the normalized brush `[10, 50]` on `ARR_DELAY`. -/
theorem claim9_witness : state1.brushes "ARR_DELAY" = some (10, 50) ∧ (10 : ℚ) ≤ 50 :=
  ⟨by decide,
    claim9_brushes_normalized flightViews ld0 state1
      (Reachable.step Reachable.init
        (Step.brush initState "ARR_DELAY" arrDelayDim (some (10, 50)) (by decide)))
      "ARR_DELAY" 10 50 (by decide)⟩

/-- Fact: `diff` is the element-wise difference second-minus-first (1D). -/
theorem diff1_getD (a b : List ℚ) (k : ℕ) (ha : k < a.length)
    (hb : k < b.length) :
    (diff1 a b).getD k 0 = b.getD k 0 - a.getD k 0 := by
  have hlen : k < (diff1 a b).length := by
    rw [diff1, List.length_zipWith]
    exact lt_min ha hb
  rw [List.getD_eq_getElem _ _ hlen, List.getD_eq_getElem _ _ ha,
    List.getD_eq_getElem _ _ hb]
  simp [diff1, List.getElem_zipWith]

/-- Fact: `diff` is the element-wise difference second-minus-first (2D). -/
theorem diff2_getD (A B : List (List ℚ)) (x y : ℕ) (hxa : x < A.length)
    (hxb : x < B.length) (hya : y < (A.getD x []).length)
    (hyb : y < (B.getD x []).length) :
    ((diff2 A B).getD x []).getD y 0 =
      (B.getD x []).getD y 0 - (A.getD x []).getD y 0 := by
  have hlen : x < (diff2 A B).length := by
    rw [diff2, List.length_zipWith]
    exact lt_min hxa hxb
  have hrow : (diff2 A B).getD x [] = diff1 (A.getD x []) (B.getD x []) := by
    rw [List.getD_eq_getElem _ _ hlen, List.getD_eq_getElem _ _ hxa,
      List.getD_eq_getElem _ _ hxb]
    simp [diff2, List.getElem_zipWith]
  rw [hrow]
  exact diff1_getD _ _ _ hya hyb

/-- C1: when `update` runs with the dirty flag set, every passive view's
aggregate handed to the rendering layer is the cube's last slice
`Cube[HISTOGRAM_WIDTH]` when no brush is stored on the active dimension, and
the element-wise slice difference `Cube[hiIndex] − Cube[loIndex]` at the two
snapped boundary indices when a brush `[lo, hi]` is stored; the final
conjuncts state that `diff` is indeed the element-wise difference. -/
theorem claim1_update_passive_aggregate (views : ViewList) (s : AppState)
    (av : String) (adim : Dimension)
    (h1 : s.needsUpdate = true)
    (h2 : s.activeView = some av)
    (h3 : lookupView views av = some (View.view1D adim)) :
    (∀ name dim slices, (name, View.view1D dim) ∈ views → name ≠ av →
       s.data name = some (CubeData.one slices) →
       (s.brushes adim.name = none →
          (name, RenderData.d1 (update1DView dim
              (slices.getD HISTOGRAM_WIDTH []))) ∈ (App.update views s).2) ∧
       (∀ lo hi, s.brushes adim.name = some (lo, hi) →
          (name, RenderData.d1 (update1DView dim
              (diff1 (slices.getD (snapIndex adim lo).toNat [])
                     (slices.getD (snapIndex adim hi).toNat []))))
            ∈ (App.update views s).2)) ∧
    (∀ name dims slices, (name, View.view2D dims) ∈ views → name ≠ av →
       s.data name = some (CubeData.two slices) →
       (s.brushes adim.name = none →
          (name, RenderData.d2 (update2DView dims
              (slices.getD HISTOGRAM_WIDTH []))) ∈ (App.update views s).2) ∧
       (∀ lo hi, s.brushes adim.name = some (lo, hi) →
          (name, RenderData.d2 (update2DView dims
              (diff2 (slices.getD (snapIndex adim lo).toNat [])
                     (slices.getD (snapIndex adim hi).toNat []))))
            ∈ (App.update views s).2)) ∧
    (∀ (a b : List ℚ) (k : ℕ), k < a.length → k < b.length →
       (diff1 a b).getD k 0 = b.getD k 0 - a.getD k 0) ∧
    (∀ (A B : List (List ℚ)) (x y : ℕ), x < A.length → x < B.length →
       y < (A.getD x []).length → y < (B.getD x []).length →
       ((diff2 A B).getD x []).getD y 0 =
         (B.getD x []).getD y 0 - (A.getD x []).getD y 0) := by
  have hupd : (App.update views s).2 = App.computeRenders views s := by
    simp [App.update, h1]
  have hcr : App.computeRenders views s =
      views.filterMap (passiveRender s av
        ((s.brushes adim.name).map fun p =>
          (snapIndex adim p.1, snapIndex adim p.2))) := by
    simp only [App.computeRenders, h2, h3]
  refine ⟨?_, ?_, fun a b k ha hb => diff1_getD a b k ha hb,
    fun A B x y hxa hxb hya hyb => diff2_getD A B x y hxa hxb hya hyb⟩
  · intro name dim slices hmem hne hdata
    constructor
    · intro hbrush
      rw [hupd, hcr, hbrush]
      exact List.mem_filterMap.mpr ⟨(name, View.view1D dim), hmem,
        by simp [passiveRender, hne, hdata, pickHist]⟩
    · intro lo hi hbrush
      rw [hupd, hcr, hbrush]
      exact List.mem_filterMap.mpr ⟨(name, View.view1D dim), hmem,
        by simp [passiveRender, hne, hdata, pickHist]⟩
  · intro name dims slices hmem hne hdata
    constructor
    · intro hbrush
      rw [hupd, hcr, hbrush]
      exact List.mem_filterMap.mpr ⟨(name, View.view2D dims), hmem,
        by simp [passiveRender, hne, hdata, pickHeat]⟩
    · intro lo hi hbrush
      rw [hupd, hcr, hbrush]
      exact List.mem_filterMap.mpr ⟨(name, View.view2D dims), hmem,
        by simp [passiveRender, hne, hdata, pickHeat]⟩

/-- A concrete dirty state with active `ARR_DELAY`, no brush, and an (empty)
cube for `DISTANCE`; used to instantiate the update theorems. -/
def stateC1 : AppState :=
  { activeView := some "ARR_DELAY",
    brushes := fun _ => none,
    data := fun n => if n = "DISTANCE" then some (CubeData.one []) else none,
    needsUpdate := true }

/-- Witness for C1 at a concrete state: the unbrushed update of `stateC1`
delivers the last cube slice for the passive `DISTANCE` view. -/
theorem claim1_witness :
    ("DISTANCE", RenderData.d1 (update1DView distanceDim
        (([] : List (List ℚ)).getD HISTOGRAM_WIDTH [])))
      ∈ (App.update flightViews stateC1).2 :=
  ((claim1_update_passive_aggregate flightViews stateC1 "ARR_DELAY" arrDelayDim
      rfl rfl (by decide)).1
    "DISTANCE" distanceDim [] (by decide) (by decide) (by decide)).1 rfl

/-- Rounding is nearest: `jsRound q` is the integer nearest to `q` (ties are irrelevant for the
inequality). -/
theorem abs_sub_jsRound_le (q : ℚ) (i : ℤ) :
    |q - (jsRound q : ℚ)| ≤ |q - (i : ℚ)| := by
  have h1 : (jsRound q : ℚ) ≤ q + 1 / 2 := by
    rw [jsRound_eq_floor]
    exact_mod_cast Int.floor_le (q + 1 / 2)
  have h2 : q - 1 / 2 < (jsRound q : ℚ) := by
    rw [jsRound_eq_floor]
    have := Int.lt_floor_add_one (q + 1 / 2)
    push_cast at this ⊢
    linarith
  have habs : |q - (jsRound q : ℚ)| ≤ 1 / 2 :=
    abs_le.mpr ⟨by linarith, by linarith⟩
  rcases lt_trichotomy i (jsRound q) with hlt | heq | hgt
  · have hle : (i : ℚ) ≤ (jsRound q : ℚ) - 1 := by
      have := Int.le_sub_one_of_lt hlt
      exact_mod_cast this
    have hge : 1 / 2 ≤ q - (i : ℚ) := by linarith
    calc |q - (jsRound q : ℚ)| ≤ 1 / 2 := habs
      _ ≤ q - (i : ℚ) := hge
      _ ≤ |q - (i : ℚ)| := le_abs_self _
  · rw [heq]
  · have hge : (jsRound q : ℚ) + 1 ≤ (i : ℚ) := by
      have := Int.add_one_le_of_lt hgt
      exact_mod_cast this
    have hge2 : 1 / 2 ≤ (i : ℚ) - q := by linarith
    calc |q - (jsRound q : ℚ)| ≤ 1 / 2 := habs
      _ ≤ (i : ℚ) - q := hge2
      _ ≤ |q - (i : ℚ)| := by
          rw [abs_sub_comm]
          exact le_abs_self _

/-- Clamping the rounded value still yields the nearest integer among those
inside the clamp range. -/
theorem abs_sub_clamp_jsRound_le (q : ℚ) (i lo hi : ℤ) (hlo : lo ≤ i)
    (hhi : i ≤ hi) :
    |q - (clampInt (jsRound q) lo hi : ℚ)| ≤ |q - (i : ℚ)| := by
  have h1 : (jsRound q : ℚ) ≤ q + 1 / 2 := by
    rw [jsRound_eq_floor]
    exact_mod_cast Int.floor_le (q + 1 / 2)
  have h2 : q - 1 / 2 < (jsRound q : ℚ) := by
    rw [jsRound_eq_floor]
    have := Int.lt_floor_add_one (q + 1 / 2)
    push_cast at this ⊢
    linarith
  rcases le_or_lt lo (jsRound q) with hl | hl
  · rcases le_or_lt (jsRound q) hi with hh | hh
    · have hc : clampInt (jsRound q) lo hi = jsRound q := by
        unfold clampInt
        omega
      rw [hc]
      exact abs_sub_jsRound_le q i
    · have hc : clampInt (jsRound q) lo hi = hi := by
        unfold clampInt
        omega
      rw [hc]
      have hq : (hi : ℚ) + 1 ≤ (jsRound q : ℚ) := by
        have := Int.add_one_le_of_lt hh
        exact_mod_cast this
      have hiq : (i : ℚ) ≤ (hi : ℚ) := by exact_mod_cast hhi
      have habs1 : |q - (hi : ℚ)| = q - (hi : ℚ) := by
        rw [abs_of_nonneg]
        linarith
      have habs2 : q - (i : ℚ) ≤ |q - (i : ℚ)| := le_abs_self _
      rw [habs1]
      linarith
  · have hc : clampInt (jsRound q) lo hi = lo := by
      unfold clampInt
      omega
    rw [hc]
    have hq : (jsRound q : ℚ) ≤ (lo : ℚ) - 1 := by
      have := Int.le_sub_one_of_lt hl
      exact_mod_cast this
    have hiq : (lo : ℚ) ≤ (i : ℚ) := by exact_mod_cast hlo
    have habs1 : |q - (lo : ℚ)| = (lo : ℚ) - q := by
      rw [abs_sub_comm, abs_of_nonneg]
      linarith
    have habs2 : (i : ℚ) - q ≤ |q - (i : ℚ)| := by
      rw [abs_sub_comm]
      exact le_abs_self _
    rw [habs1]
    linarith

/-- The endpoint mapping exactly as claim C2 words it (refinement target,
following the spec text): round to the nearest of the `resolution+1`
boundary indices, then clamp into the inclusive range `[0, resolution]`. -/
def claimSnapIndex (dim : Dimension) (b : ℚ) : ℤ :=
  clampInt (binNumberF dim.extent.1 (stepSize dim.extent HISTOGRAM_WIDTH) b)
    0 (HISTOGRAM_WIDTH : ℤ)

/-- Both clamp bounds hold for a clamped value. -/
theorem clampInt_bounds (v lo hi : ℤ) (h : lo ≤ hi) :
    lo ≤ clampInt v lo hi ∧ clampInt v lo hi ≤ hi := by
  unfold clampInt
  omega

/-- A concrete cube whose slice 499 differs from slice 500, together with a
dirty state carrying the brush `[10, 100]` on the active `ARR_DELAY` view. -/
def cubeC2 : List (List ℚ) := List.replicate 500 [0] ++ [[1]]

/-- State used to refute C2's clamp range at the update level. -/
def stateC2 : AppState :=
  { activeView := some "ARR_DELAY",
    brushes := fun d => if d = "ARR_DELAY" then some (10, 100) else none,
    data := fun n => if n = "DISTANCE" then some (CubeData.one cubeC2) else none,
    needsUpdate := true }

set_option maxRecDepth 40000 in
/-- C2 fails as stated: the code clamps into `[0, HISTOGRAM_WIDTH − 1]`, not
`[0, resolution]`. At the endpoint `b = 100` (the extent maximum) the
round-to-nearest index is 500, the claim's mapping yields 500, but `update`
uses 499 — and on a cube whose slices 499 and 500 differ, the delivered
aggregate differs from the claim's prediction. -/
theorem claim2_counterexample :
    snapIndex arrDelayDim 100 = 499 ∧
    claimSnapIndex arrDelayDim 100 = 500 ∧
    snapIndex arrDelayDim 100 ≠ claimSnapIndex arrDelayDim 100 ∧
    ("DISTANCE", RenderData.d1 (update1DView distanceDim
        (diff1 (cubeC2.getD 91 []) (cubeC2.getD 499 []))))
      ∈ (App.update flightViews stateC2).2 ∧
    diff1 (cubeC2.getD 91 []) (cubeC2.getD 499 []) ≠
      diff1 (cubeC2.getD 91 []) (cubeC2.getD 500 []) := by
  decide

/-- C2 amended: `update` maps each brush endpoint to the boundary index
nearest to it via round-to-nearest, clamped into the inclusive range
`[0, resolution − 1]` (not `[0, resolution]`): the snapped index is in
`[0, HISTOGRAM_WIDTH − 1]` and, among all indices in that range, its
boundary is nearest to the endpoint. -/
theorem claim2_amended_snap_nearest (dim : Dimension) (b : ℚ)
    (hlt : dim.extent.1 < dim.extent.2) :
    0 ≤ snapIndex dim b ∧
    snapIndex dim b ≤ (HISTOGRAM_WIDTH : ℤ) - 1 ∧
    ∀ i : ℤ, 0 ≤ i → i ≤ (HISTOGRAM_WIDTH : ℤ) - 1 →
      |b - boundary dim (snapIndex dim b)| ≤ |b - boundary dim i| := by
  have hWpos : (0 : ℚ) < (HISTOGRAM_WIDTH : ℚ) := by
    norm_num [HISTOGRAM_WIDTH]
  have hst : 0 < stepSize dim.extent HISTOGRAM_WIDTH :=
    div_pos (by linarith) hWpos
  have hbounds := clampInt_bounds
    (binNumberF dim.extent.1 (stepSize dim.extent HISTOGRAM_WIDTH) b) 0
    ((HISTOGRAM_WIDTH : ℤ) - 1) (by norm_num [HISTOGRAM_WIDTH])
  refine ⟨hbounds.1, hbounds.2, ?_⟩
  intro i h0 hW
  have key : ∀ j : ℤ, b - boundary dim j =
      stepSize dim.extent HISTOGRAM_WIDTH *
        ((b - dim.extent.1) / stepSize dim.extent HISTOGRAM_WIDTH - (j : ℚ)) := by
    intro j
    rw [boundary]
    field_simp
    ring
  have keyabs : ∀ j : ℤ, |b - boundary dim j| =
      stepSize dim.extent HISTOGRAM_WIDTH *
        |(b - dim.extent.1) / stepSize dim.extent HISTOGRAM_WIDTH - (j : ℚ)| := by
    intro j
    rw [key j, abs_mul, abs_of_pos hst]
  rw [keyabs, keyabs]
  exact mul_le_mul_of_nonneg_left
    (abs_sub_clamp_jsRound_le
      ((b - dim.extent.1) / stepSize dim.extent HISTOGRAM_WIDTH) i 0
      ((HISTOGRAM_WIDTH : ℤ) - 1) h0 hW) hst.le

/-- Witness for the amended C2 on the `ARR_DELAY` dimension: the snap of the
endpoint 10 is within range and its boundary is at least as close to 10 as
the boundary of index 200. -/
theorem claim2_witness :
    (arrDelayDim.extent.1 < arrDelayDim.extent.2) ∧
    0 ≤ snapIndex arrDelayDim 10 ∧
    |(10 : ℚ) - boundary arrDelayDim (snapIndex arrDelayDim 10)| ≤
      |(10 : ℚ) - boundary arrDelayDim 200| :=
  ⟨by decide,
    (claim2_amended_snap_nearest arrDelayDim 10 (by decide)).1,
    (claim2_amended_snap_nearest arrDelayDim 10 (by decide)).2.2 200
      (by decide) (by decide)⟩

/-- C3: in the concrete flights scenario (active `ARR_DELAY`, extent
`[-10, 100]`, resolution 500), the brush `[10, 50]` snaps to boundary
indices 91 and 273, and the aggregate delivered for the passive `DISTANCE`
view is exactly `Cube[273] − Cube[91]`. -/
theorem claim3_concrete_scenario (s : AppState) (slices : List (List ℚ))
    (h1 : s.needsUpdate = true)
    (h2 : s.activeView = some "ARR_DELAY")
    (h3 : s.brushes "ARR_DELAY" = some (10, 50))
    (h4 : s.data "DISTANCE" = some (CubeData.one slices)) :
    snapIndex arrDelayDim 10 = 91 ∧
    snapIndex arrDelayDim 50 = 273 ∧
    ("DISTANCE", RenderData.d1 (update1DView distanceDim
        (diff1 (slices.getD 91 []) (slices.getD 273 []))))
      ∈ (App.update flightViews s).2 := by
  refine ⟨by decide, by decide, ?_⟩
  have hupd : (App.update flightViews s).2 =
      App.computeRenders flightViews s := by
    simp [App.update, h1]
  have hlook : lookupView flightViews "ARR_DELAY" =
      some (View.view1D arrDelayDim) := by decide
  have hcr : App.computeRenders flightViews s =
      flightViews.filterMap (passiveRender s "ARR_DELAY"
        ((s.brushes arrDelayDim.name).map fun p =>
          (snapIndex arrDelayDim p.1, snapIndex arrDelayDim p.2))) := by
    simp only [App.computeRenders, h2, hlook]
  have hname : arrDelayDim.name = "ARR_DELAY" := rfl
  have hsnap : ((s.brushes "ARR_DELAY").map fun p =>
      (snapIndex arrDelayDim p.1, snapIndex arrDelayDim p.2)) =
        some (91, 273) := by
    rw [h3]
    decide
  rw [hupd, hcr, hname, hsnap]
  refine List.mem_filterMap.mpr ⟨("DISTANCE", View.view1D distanceDim),
    by decide, ?_⟩
  simp only [passiveRender,
    if_neg (show ¬(("DISTANCE", View.view1D distanceDim).1 = "ARR_DELAY") by decide),
    h4, pickHist]
  rfl

/-- Witness for C3 at a fully concrete state (empty cube slices). -/
theorem claim3_witness :
    snapIndex arrDelayDim 10 = 91 ∧
    snapIndex arrDelayDim 50 = 273 ∧
    ("DISTANCE", RenderData.d1 (update1DView distanceDim
        (diff1 (([] : List (List ℚ)).getD 91 [])
               (([] : List (List ℚ)).getD 273 []))))
      ∈ (App.update flightViews
          { activeView := some "ARR_DELAY",
            brushes := fun d => if d = "ARR_DELAY" then some (10, 50) else none,
            data := fun n => if n = "DISTANCE" then some (CubeData.one []) else none,
            needsUpdate := true }).2 :=
  claim3_concrete_scenario _ [] rfl rfl (by decide) (by decide)

/-- Witness for the amended C4: switching the fresh app to `ARR_DELAY`
yields a build whose filter context has no `ARR_DELAY` entry. -/
theorem claim4_witness :
    (App.switchActiveView flightViews ld0 initState "ARR_DELAY").2.filterBrushes
        arrDelayDim.name = none ∧
    (App.switchActiveView flightViews ld0 initState "ARR_DELAY").1.activeView =
      some "ARR_DELAY" :=
  ⟨(claim4_amended_filter_excludes_active flightViews ld0 initState
      "ARR_DELAY" arrDelayDim (by decide)).1,
   (claim4_amended_filter_excludes_active flightViews ld0 initState
      "ARR_DELAY" arrDelayDim (by decide)).2.1⟩

/-- Witness for C5: hovering `ARR_DELAY` on the fresh app activates it, and
hovering it again in a state where it is already active is a no-op. -/
theorem claim5_witness :
    (App.hover flightViews ld0 initState "ARR_DELAY").1.activeView =
      some "ARR_DELAY" ∧
    App.hover flightViews ld0 stateC1 "ARR_DELAY" = (stateC1, none) :=
  ⟨((claim5_hover_switch flightViews ld0 initState "ARR_DELAY" arrDelayDim
      (by decide)).1 (by decide)).1,
   (claim5_hover_switch flightViews ld0 stateC1 "ARR_DELAY" arrDelayDim
      (by decide)).2 rfl⟩

/-- Witness for C6: a brush event on the active `ARR_DELAY` view neither
replaces the cube data nor issues a build. -/
theorem claim6_witness :
    (App.brushMove flightViews ld0 stateC1 "ARR_DELAY" "ARR_DELAY"
        (some (3, 7))).1.data = stateC1.data ∧
    (App.brushMove flightViews ld0 stateC1 "ARR_DELAY" "ARR_DELAY"
        (some (3, 7))).2 = none :=
  ⟨(claim6_brushMove_active_no_rebuild flightViews ld0 stateC1 "ARR_DELAY"
      "ARR_DELAY" (some (3, 7)) rfl).1,
   (claim6_brushMove_active_no_rebuild flightViews ld0 stateC1 "ARR_DELAY"
      "ARR_DELAY" (some (3, 7)) rfl).2.1⟩

/-- Witness for C7: updating the clean fresh app is a no-op, and a brush
event sets the dirty flag. -/
theorem claim7_witness :
    App.update flightViews initState = (initState, []) ∧
    (App.brushMove flightViews ld0 initState "ARR_DELAY" "ARR_DELAY"
        none).1.needsUpdate = true :=
  ⟨(claim7_update_coalescing flightViews ld0).1 initState rfl,
   (claim7_update_coalescing flightViews ld0).2.1 initState "ARR_DELAY"
      "ARR_DELAY" none⟩

/-- C8: a 1D rendering update delivers one `{key, value}` element per
histogram bin, the key being the data-domain value derived from the view's
bin configuration (not the raw index); a 2D update delivers
`{keyX, keyY, value}` triples covering every bin pair, with both keys
likewise derived from the two bin configurations. -/
theorem claim8_render_payload_shape (dim : Dimension) (hist : List ℚ)
    (dims : Dimension × Dimension) (heat : List (List ℚ)) (nY : ℕ)
    (hrow : ∀ row ∈ heat, row.length = nY) :
    (update1DView dim hist).length = hist.length ∧
    (∀ x, x < hist.length →
       (update1DView dim hist).getD x { key := 0, value := 0 } =
         { key := binToData (bin dim.bins dim.extent) x,
           value := hist.getD x 0 }) ∧
    (update2DView dims heat).length = heat.length * nY ∧
    (∀ x y, x < heat.length → y < nY →
       ({ keyX := binToData (bin dims.1.bins dims.1.extent) x,
          keyY := binToData (bin dims.2.bins dims.2.extent) y,
          value := (heat.getD x []).getD y 0 } : KKV) ∈
         update2DView dims heat) := by
  refine ⟨?_, ?_, ?_, ?_⟩
  · simp [update1DView]
  · intro x hx
    have hlen : x < (update1DView dim hist).length := by
      simpa [update1DView] using hx
    rw [List.getD_eq_getElem _ _ hlen]
    simp [update1DView]
  · rw [update2DView, List.length_flatten, List.map_map]
    have hc : ((List.range heat.length).map (List.length ∘ fun x =>
        (List.range (heat.getD x []).length).map fun y =>
          ({ keyX := binToData (bin dims.1.bins dims.1.extent) x,
             keyY := binToData (bin dims.2.bins dims.2.extent) y,
             value := (heat.getD x []).getD y 0 } : KKV))) =
        (List.range heat.length).map (fun _ => nY) := by
      apply List.map_congr_left
      intro x hx
      have hx' : x < heat.length := List.mem_range.mp hx
      simp only [Function.comp_apply, List.length_map, List.length_range]
      rw [List.getD_eq_getElem _ _ hx']
      exact hrow _ (List.getElem_mem hx')
    rw [hc, List.map_const', List.sum_replicate, List.length_range,
      smul_eq_mul]
  · intro x y hx hy
    rw [update2DView]
    apply List.mem_flatten.mpr
    refine ⟨(List.range (heat.getD x []).length).map fun y =>
      ({ keyX := binToData (bin dims.1.bins dims.1.extent) x,
         keyY := binToData (bin dims.2.bins dims.2.extent) y,
         value := (heat.getD x []).getD y 0 } : KKV), ?_, ?_⟩
    · exact List.mem_map.mpr ⟨x, List.mem_range.mpr hx, rfl⟩
    · refine List.mem_map.mpr ⟨y, ?_, rfl⟩
      apply List.mem_range.mpr
      have : (heat.getD x []).length = nY := by
        rw [List.getD_eq_getElem _ _ hx]
        exact hrow _ (List.getElem_mem hx)
      rw [this]
      exact hy

/-- Witness for C8 on concrete payloads. -/
theorem claim8_witness :
    (update1DView distanceDim [1, 2]).length = 2 ∧
    ({ keyX := binToData (bin depDelayDim.bins depDelayDim.extent) 0,
       keyY := binToData (bin arrDelayDim.bins arrDelayDim.extent) 1,
       value := (([[1, 2], [3, 4]] : List (List ℚ)).getD 0 []).getD 1 0 } : KKV) ∈
      update2DView (depDelayDim, arrDelayDim) [[1, 2], [3, 4]] :=
  ⟨(claim8_render_payload_shape distanceDim [1, 2] (depDelayDim, arrDelayDim)
      [[1, 2], [3, 4]] 2 (by decide)).1,
   (claim8_render_payload_shape distanceDim [1, 2] (depDelayDim, arrDelayDim)
      [[1, 2], [3, 4]] 2 (by decide)).2.2.2 0 1 (by decide) (by decide)⟩
